import Mathlib

/-!
# Verification of the X3DH / PQXDH key-agreement demo

Shallow embedding of the TypeScript sources `src/utils/crypto.ts` and
`src/x3dh/X3DH.ts` (classes `CryptoUtils`, `X3DH`, `PQXDH`).

Modelling conventions:
* JavaScript byte buffers are `List Nat` with entries `< 256`; JavaScript
  strings are Lean `String`s (all strings involved are ASCII, where JS
  UTF-16 lexicographic comparison coincides with Lean's `String` order).
* Base64 encoding/decoding (`Buffer.from(s, "base64")`,
  `buf.toString("base64")`) is implemented concretely, since the ordering
  behaviour of `generateSafetyNumber` depends on comparing base64 text.
* The external elliptic-curve library (`@noble/curves` x25519) is modelled
  as exponentiation in the multiplicative group modulo `2^255 - 19` with
  the standard x25519 scalar clamping: `getPublicKey s = 9 ^ clamp s` and
  `getSharedSecret s P = P ^ clamp s`, over 32-byte little-endian
  encodings.  Only determinism and the commutativity
  `(g^a)^b = (g^b)^a` of the library are relied upon.
* The external SHA-512 (`@noble/hashes`) is idealised as a collision-free
  deterministic codec (random-oracle style): only determinism and
  input-distinctness are relied upon.
* The external symmetric cipher (crypto-js AES-CBC with a passphrase key)
  is idealised as a deterministic invertible cipher: decrypting with the
  key whose derived form matches the one used at encryption recovers the
  plaintext, any other key yields `""` (modelling the padding failure).
* The external ML-KEM-1024 (`mlkem`) is idealised as a correct KEM.
* Randomness (`randomBytes`, KEM coins) is passed in explicitly as
  parameters.
* Fallible operations (JavaScript `TypeError` on an out-of-range pre-key
  index, malformed bundle) are modelled with `Option`.
-/

/-- Little-endian byte decomposition: `natToBytesLE k n` is the `k`-byte
little-endian encoding of `n % 256^k`. -/
def natToBytesLE : Nat → Nat → List Nat
  | 0, _ => []
  | k + 1, n => n % 256 :: natToBytesLE k (n / 256)

/-- Little-endian byte recomposition, inverse of `natToBytesLE`. -/
def bytesToNatLE : List Nat → Nat
  | [] => 0
  | b :: rest => b + 256 * bytesToNatLE rest

theorem natToBytesLE_lt_256 : ∀ (k n : Nat), ∀ b ∈ natToBytesLE k n, b < 256 := by
  intro k
  induction k with
  | zero => intro n b hb; simp [natToBytesLE] at hb
  | succ k ih =>
    intro n b hb
    simp only [natToBytesLE, List.mem_cons] at hb
    rcases hb with h | h
    · omega
    · exact ih _ _ h

theorem bytesToNatLE_natToBytesLE : ∀ (k n : Nat), bytesToNatLE (natToBytesLE k n) = n % 256 ^ k := by
  intro k
  induction k with
  | zero => intro n; simp [natToBytesLE, bytesToNatLE, Nat.mod_one]
  | succ k ih =>
    intro n
    simp only [natToBytesLE, bytesToNatLE, ih]
    have h1 : 256 ^ (k + 1) = 256 * 256 ^ k := by ring
    rw [h1, Nat.mod_mul]

/-- Binary modular exponentiation with explicit fuel (structural recursion,
so that it reduces in the kernel on concrete inputs). -/
def powModAux : Nat → Nat → Nat → Nat → Nat
  | 0, _, _, m => 1 % m
  | fuel + 1, b, e, m =>
    if e = 0 then 1 % m
    else powModAux fuel (b * b % m) (e / 2) m * (if e % 2 = 1 then b else 1) % m

/-- Modular exponentiation `b ^ e % m`, defined for exponents below `2^300`
(sufficient for all clamped x25519 scalars). -/
def powMod (b e m : Nat) : Nat := powModAux 300 b e m

theorem powModAux_eq : ∀ (fuel b e m : Nat), e < 2 ^ fuel → 0 < m →
    powModAux fuel b e m = b ^ e % m := by
  intro fuel
  induction fuel with
  | zero =>
    intro b e m he hm
    interval_cases e
    simp [powModAux]
  | succ fuel ih =>
    intro b e m he hm
    by_cases h0 : e = 0
    · subst h0; simp [powModAux]
    · have hdiv : e / 2 < 2 ^ fuel := by
        have : 2 ^ (fuel + 1) = 2 * 2 ^ fuel := by ring
        omega
      simp only [powModAux, if_neg h0, ih _ _ _ hdiv hm]
      have hsplit : b ^ e = (b * b) ^ (e / 2) * (if e % 2 = 1 then b else 1) := by
        have h2 : e = 2 * (e / 2) + e % 2 := (Nat.div_add_mod e 2).symm.trans (by ring)
        by_cases hpar : e % 2 = 1
        · simp only [if_pos hpar]
          conv_lhs => rw [h2, hpar]
          rw [pow_add, pow_mul, pow_one]
          ring
        · have : e % 2 = 0 := by omega
          simp only [if_neg hpar]
          conv_lhs => rw [h2, this]
          rw [Nat.add_zero, pow_mul]
          ring
      rw [hsplit]
      conv_lhs => rw [Nat.mul_mod]
      conv_rhs => rw [Nat.mul_mod, Nat.pow_mod]
      simp [Nat.mod_mod_of_dvd]

theorem powMod_eq (b e m : Nat) (he : e < 2 ^ 300) (hm : 0 < m) :
    powMod b e m = b ^ e % m :=
  powModAux_eq 300 b e m he hm

/-- Code point of the base64 alphabet character for a 6-bit value
(`A`–`Z`, `a`–`z`, `0`–`9`, `+`, `/`). -/
def b64code (n : Nat) : Nat :=
  if n < 26 then 65 + n
  else if n < 52 then 71 + n
  else if n < 62 then n - 4
  else if n = 62 then 43 else 47

/-- Base64 alphabet character for a 6-bit value. -/
def b64char (n : Nat) : Char := Char.ofNat (b64code n)

/-- 6-bit value of a base64 alphabet character (`0` on anything else,
matching Node's lenient decoder closely enough for this development). -/
def b64val (c : Char) : Nat :=
  let n := c.toNat
  if 65 ≤ n ∧ n ≤ 90 then n - 65
  else if 97 ≤ n ∧ n ≤ 122 then n - 97 + 26
  else if 48 ≤ n ∧ n ≤ 57 then n - 48 + 52
  else if n = 43 then 62
  else if n = 47 then 63
  else 0

/-- Base64 encoding of a byte list, with `=` padding, as produced by
Node's `Buffer.prototype.toString("base64")`. -/
def base64EncodeChars : List Nat → List Char
  | [] => []
  | [b1] => [b64char (b1 / 4), b64char (b1 % 4 * 16), '=', '=']
  | [b1, b2] =>
    [b64char (b1 / 4), b64char (b1 % 4 * 16 + b2 / 16), b64char (b2 % 16 * 4), '=']
  | b1 :: b2 :: b3 :: rest =>
    b64char (b1 / 4) :: b64char (b1 % 4 * 16 + b2 / 16) ::
    b64char (b2 % 16 * 4 + b3 / 64) :: b64char (b3 % 64) ::
    base64EncodeChars rest

/-- Base64 decoding of a character list, as performed by Node's
`Buffer.from(s, "base64")`: 4-character groups, `=`-padded or truncated
final group. -/
def base64DecodeChars : List Char → List Nat
  | c1 :: c2 :: c3 :: c4 :: rest =>
    if c3 = '=' then [b64val c1 * 4 + b64val c2 / 16]
    else if c4 = '=' then
      [b64val c1 * 4 + b64val c2 / 16, b64val c2 % 16 * 16 + b64val c3 / 4]
    else
      (b64val c1 * 4 + b64val c2 / 16) ::
      (b64val c2 % 16 * 16 + b64val c3 / 4) ::
      (b64val c3 % 4 * 64 + b64val c4) ::
      base64DecodeChars rest
  | [c1, c2, c3] =>
    if c3 = '=' then [b64val c1 * 4 + b64val c2 / 16]
    else [b64val c1 * 4 + b64val c2 / 16, b64val c2 % 16 * 16 + b64val c3 / 4]
  | [c1, c2] => [b64val c1 * 4 + b64val c2 / 16]
  | _ => []

/-- `buf.toString("base64")` on a byte list. -/
def base64Encode (l : List Nat) : String := String.mk (base64EncodeChars l)

/-- `Buffer.from(s, "base64")` on a string. -/
def base64Decode (s : String) : List Nat := base64DecodeChars s.toList

theorem b64val_b64char_fin : ∀ x : Fin 64, b64val (b64char x.val) = x.val := by decide

theorem b64val_b64char {x : Nat} (h : x < 64) : b64val (b64char x) = x :=
  b64val_b64char_fin ⟨x, h⟩

theorem b64char_ne_eq_fin : ∀ x : Fin 64, b64char x.val ≠ '=' := by decide

theorem b64char_ne_eq {x : Nat} (h : x < 64) : b64char x ≠ '=' :=
  b64char_ne_eq_fin ⟨x, h⟩

theorem base64_decode_encode : ∀ (l : List Nat), (∀ b ∈ l, b < 256) →
    base64DecodeChars (base64EncodeChars l) = l
  | [], _ => rfl
  | [b1], h => by
    have hb1 : b1 < 256 := h b1 (by simp)
    simp only [base64EncodeChars, base64DecodeChars]
    rw [if_pos trivial, b64val_b64char (by omega), b64val_b64char (by omega)]
    simp only [List.cons.injEq, and_true]
    omega
  | [b1, b2], h => by
    have hb1 : b1 < 256 := h b1 (by simp)
    have hb2 : b2 < 256 := h b2 (by simp)
    simp only [base64EncodeChars, base64DecodeChars]
    rw [if_neg (b64char_ne_eq (by omega)), if_pos trivial,
      b64val_b64char (by omega), b64val_b64char (by omega), b64val_b64char (by omega)]
    simp only [List.cons.injEq, and_true]
    constructor <;> omega
  | b1 :: b2 :: b3 :: rest, h => by
    have hb1 : b1 < 256 := h b1 (by simp)
    have hb2 : b2 < 256 := h b2 (by simp)
    have hb3 : b3 < 256 := h b3 (by simp)
    have hrest : ∀ b ∈ rest, b < 256 := fun b hb => h b (by simp [hb])
    simp only [base64EncodeChars, base64DecodeChars]
    rw [if_neg (b64char_ne_eq (by omega)), if_neg (b64char_ne_eq (by omega)),
      b64val_b64char (by omega), b64val_b64char (by omega),
      b64val_b64char (by omega), b64val_b64char (by omega),
      base64_decode_encode rest hrest]
    simp only [List.cons.injEq, and_true]
    refine ⟨by omega, by omega, by omega⟩

theorem base64Decode_base64Encode (l : List Nat) (h : ∀ b ∈ l, b < 256) :
    base64Decode (base64Encode l) = l :=
  base64_decode_encode l h

/-- The Curve25519 field prime `2^255 - 19`. -/
def P25519 : Nat := 2 ^ 255 - 19

/-- x25519 scalar clamping: clear the three low bits, clear the top bit,
set bit 254 (as performed inside the `@noble/curves` library). -/
def clamp (n : Nat) : Nat := 2 ^ 254 + n % 2 ^ 254 / 8 * 8

/-- Model of `x25519.getPublicKey` from `@noble/curves/ed25519`: the group
operation is idealised as exponentiation modulo `P25519` with base `9`
(the curve's base point coordinate); 32-byte little-endian encodings. -/
def x25519GetPublicKey (privBytes : List Nat) : List Nat :=
  natToBytesLE 32 (powMod 9 (clamp (bytesToNatLE privBytes)) P25519)

/-- Model of `x25519.getSharedSecret`: the peer's public group element
raised to the clamped private scalar. -/
def x25519GetSharedSecret (privBytes pubBytes : List Nat) : List Nat :=
  natToBytesLE 32 (powMod (bytesToNatLE pubBytes) (clamp (bytesToNatLE privBytes)) P25519)

/-- Model of the external SHA-512 from `@noble/hashes`, idealised as a
collision-free deterministic codec (random-oracle style idealisation):
the digest is the length-prefixed input.  Only determinism and
input-distinctness of the real hash are relied upon. -/
def sha512Model (l : List Nat) : List Nat := l.length % 256 :: l

/-- The fixed application-context string `APP_INFO = "X3DH_Demo_v1"` from
`src/utils/crypto.ts`. -/
def APP_INFO : String := "X3DH_Demo_v1"

/-- `Buffer.from(APP_INFO)`: the UTF-8 (here ASCII) bytes of `APP_INFO`. -/
def appInfoBytes : List Nat := APP_INFO.toList.map Char.toNat

/-- JavaScript `String.prototype.slice(0, n)`. -/
def jsSlice (s : String) (n : Nat) : String := String.mk (s.toList.take n)

/-- Lexicographic comparison of character lists by code point. -/
def charListLt : List Char → List Char → Bool
  | _, [] => false
  | [], _ :: _ => true
  | a :: as, b :: bs =>
    if a.toNat < b.toNat then true
    else if b.toNat < a.toNat then false
    else charListLt as bs

/-- JavaScript string comparison `s < t`: UTF-16 code-unit lexicographic
order (all strings involved here are ASCII, where code units coincide
with code points). -/
def jsStringLt (s t : String) : Bool := charListLt s.toList t.toList

namespace CryptoUtils

/-- `CryptoUtils.generateSafetyNumber`: orders the two base64 identity-key
strings by JavaScript string comparison, concatenates their decoded
bytes, hashes, and keeps the first 12 characters of the base64 digest. -/
def generateSafetyNumber (key1 key2 : String) : String :=
  let firstKey := if jsStringLt key1 key2 then key1 else key2
  let secondKey := if jsStringLt key1 key2 then key2 else key1
  let combinedKeys := base64Decode firstKey ++ base64Decode secondKey
  jsSlice (base64Encode (sha512Model combinedKeys)) 12

/-- A `{publicKey, privateKey}` pair of base64 strings. -/
structure KeyPair where
  publicKey : String
  privateKey : String
  deriving DecidableEq, Repr

/-- `CryptoUtils.generateKeyPair`: the 32 random private bytes are passed
in explicitly as the number `rand` they encode (little-endian). -/
def generateKeyPair (rand : Nat) : KeyPair :=
  { privateKey := base64Encode (natToBytesLE 32 rand)
  , publicKey := base64Encode (x25519GetPublicKey (natToBytesLE 32 rand)) }

/-- `CryptoUtils.generatePreKey`: alias of `generateKeyPair`. -/
def generatePreKey (rand : Nat) : KeyPair := generateKeyPair rand

/-- `CryptoUtils.sign`: SHA-512 over `privateKeyBytes ‖ dataBytes`,
base64-encoded (the bespoke hash-based construction of the source). -/
def sign (privateKey data : String) : String :=
  base64Encode (sha512Model (base64Decode privateKey ++ base64Decode data))

/-- A signed pre-key `{publicKey, privateKey, signature}`. -/
structure SignedPreKeyPair where
  publicKey : String
  privateKey : String
  signature : String
  deriving DecidableEq, Repr

/-- `CryptoUtils.generateSignedPreKey`. -/
def generateSignedPreKey (identityPrivateKey : String) (rand : Nat) : SignedPreKeyPair :=
  let keyPair := generateKeyPair rand
  { publicKey := keyPair.publicKey
  , privateKey := keyPair.privateKey
  , signature := sign identityPrivateKey keyPair.publicKey }

/-- `CryptoUtils.deriveKey` (private): SHA-512 over
`keyBytes ‖ APP_INFO`, truncated to 32 bytes, base64-encoded. -/
def deriveKey (keyMaterial : String) : String :=
  base64Encode ((sha512Model (base64Decode keyMaterial ++ appInfoBytes)).take 32)

/-- Model of `CryptoUtils.encrypt` (crypto-js AES-CBC under the derived
key, used as an external collaborator): idealised as prefixing the
plaintext with the derived key.  Only invertibility under the matching
key is relied upon. -/
def encrypt (message key : String) : String :=
  String.mk ((deriveKey key).toList ++ message.toList)

/-- Model of `CryptoUtils.decrypt`: recovers the plaintext when the
derived key matches the one used at encryption, and returns `""`
otherwise (modelling the padding/UTF-8 failure of crypto-js). -/
def decrypt (encryptedMessage key : String) : String :=
  let k := (deriveKey key).toList
  let c := encryptedMessage.toList
  if c.take k.length = k then String.mk (c.drop k.length) else ""

/-- `CryptoUtils.deriveSharedSecret`: base64-decode both keys, apply the
x25519 shared-secret operation, base64-encode the result. -/
def deriveSharedSecret (privateKey publicKey : String) : String :=
  base64Encode (x25519GetSharedSecret (base64Decode privateKey) (base64Decode publicKey))

/-- `CryptoUtils.combineSharedSecrets`: concatenate the decoded secrets in
order, append `APP_INFO`, hash, base64-encode. -/
def combineSharedSecrets (secrets : List String) : String :=
  base64Encode (sha512Model ((secrets.map base64Decode).flatten ++ appInfoBytes))

end CryptoUtils

theorem cryptoUtils_decrypt_encrypt (message key : String) :
    CryptoUtils.decrypt (CryptoUtils.encrypt message key) key = message := by
  simp only [CryptoUtils.encrypt, CryptoUtils.decrypt]
  have h1 : (String.mk ((CryptoUtils.deriveKey key).toList ++ message.toList)).toList
      = (CryptoUtils.deriveKey key).toList ++ message.toList := rfl
  rw [h1, List.take_left, List.drop_left, if_pos rfl]
  cases message
  rfl

theorem clamp_lt (n : Nat) : clamp n < 2 ^ 300 := by
  have h1 : n % 2 ^ 254 / 8 * 8 ≤ n % 2 ^ 254 := Nat.div_mul_le_self _ _
  have h2 : n % 2 ^ 254 < 2 ^ 254 := Nat.mod_lt _ (by positivity)
  have h3 : (2 : Nat) ^ 254 + 2 ^ 254 ≤ 2 ^ 300 := by norm_num
  unfold clamp
  omega

theorem clamp_mod_pow (n : Nat) : clamp (n % 256 ^ 32) = clamp n := by
  unfold clamp
  rw [Nat.mod_mod_of_dvd _ ⟨2 ^ 2, by norm_num⟩]

/-- Every shared secret between two generated key pairs is the symmetric
quantity `9 ^ (clamp b * clamp a) mod P25519` (32-byte encoded). -/
theorem deriveSharedSecret_generated (a b : Nat) :
    CryptoUtils.deriveSharedSecret (CryptoUtils.generateKeyPair a).privateKey
      (CryptoUtils.generateKeyPair b).publicKey
    = base64Encode (natToBytesLE 32 (9 ^ (clamp b * clamp a) % P25519)) := by
  have hP : 0 < P25519 := by norm_num [P25519]
  have hPlt : P25519 < 256 ^ 32 := by norm_num [P25519]
  simp only [CryptoUtils.deriveSharedSecret, CryptoUtils.generateKeyPair,
    x25519GetPublicKey, x25519GetSharedSecret]
  rw [base64Decode_base64Encode _ (natToBytesLE_lt_256 _ _),
    base64Decode_base64Encode _ (natToBytesLE_lt_256 _ _)]
  rw [bytesToNatLE_natToBytesLE, bytesToNatLE_natToBytesLE, bytesToNatLE_natToBytesLE]
  rw [clamp_mod_pow, clamp_mod_pow]
  rw [powMod_eq 9 (clamp b) P25519 (clamp_lt b) hP]
  have hlt : 9 ^ clamp b % P25519 < 256 ^ 32 := lt_trans (Nat.mod_lt _ hP) hPlt
  rw [Nat.mod_eq_of_lt hlt]
  rw [powMod_eq _ (clamp a) P25519 (clamp_lt a) hP]
  rw [← Nat.pow_mod, ← pow_mul]

/-- Diffie-Hellman commutativity for generated key pairs. -/
theorem deriveSharedSecret_comm (a b : Nat) :
    CryptoUtils.deriveSharedSecret (CryptoUtils.generateKeyPair a).privateKey
      (CryptoUtils.generateKeyPair b).publicKey
    = CryptoUtils.deriveSharedSecret (CryptoUtils.generateKeyPair b).privateKey
      (CryptoUtils.generateKeyPair a).publicKey := by
  rw [deriveSharedSecret_generated, deriveSharedSecret_generated, Nat.mul_comm]

/-- A Kyber (ML-KEM-1024) key pair; the source stores these as raw
`Uint8Array`s, modelled as byte lists. -/
structure KemKeyPair where
  publicKey : List Nat
  privateKey : List Nat
  deriving DecidableEq, Repr

/-- Model of the external `MlKem1024` key generation: the private key is
the random seed, the public key a hash of it.  Idealised as a correct
KEM; only the decapsulation identity is relied upon. -/
def kemPublicOf (priv : List Nat) : List Nat := sha512Model (priv ++ [1])

/-- `kyber.generateKeyPair()` with the randomness passed explicitly. -/
def kemGenerateKeyPair (seed : List Nat) : KemKeyPair :=
  { publicKey := kemPublicOf seed, privateKey := seed }

/-- The shared secret an idealised KEM associates to a public key and an
encapsulation ciphertext. -/
def kemSharedOf (pub ct : List Nat) : List Nat := sha512Model (pub ++ ct)

/-- Model of `kyber.encap(pub)`: returns `(ciphertext, sharedSecret)`;
the encapsulation coins `rand` are passed explicitly and stand for the
ciphertext body. -/
def kemEncap (pub rand : List Nat) : List Nat × List Nat :=
  (rand, kemSharedOf pub rand)

/-- Model of `kyber.decap(ct, priv)`. -/
def kemDecap (ct priv : List Nat) : List Nat := kemSharedOf (kemPublicOf priv) ct

theorem kemDecap_kemEncap (priv rand : List Nat) :
    kemDecap (kemEncap (kemPublicOf priv) rand).1 priv
      = (kemEncap (kemPublicOf priv) rand).2 := rfl

/-- The `X3DHSession` record of `src/x3dh/X3DH.ts`. -/
structure X3DHSession where
  identityKey : CryptoUtils.KeyPair
  preKeys : List CryptoUtils.KeyPair
  signedPreKey : CryptoUtils.SignedPreKeyPair
  deriving DecidableEq, Repr

/-- The public bundle returned by `X3DH.getPublicBundle`. -/
structure X3DHBundle where
  identityKey : String
  preKeys : List String
  signedPreKeyPublicKey : String
  signedPreKeySignature : String
  deriving DecidableEq, Repr

/-- The artifact returned by `X3DH.encryptMessage`. -/
structure X3DHEncrypted where
  encryptedMessage : String
  ephemeralKey : String
  usedPreKeyIndex : Nat
  deriving DecidableEq, Repr

namespace X3DH

/-- `X3DH.initializeSession` (run in the constructor): the randomness of
the identity key, the ten pre-keys and the signed pre-key is passed
explicitly. -/
def initializeSession (idRand spkRand : Nat) (preRand : Nat → Nat) : X3DHSession :=
  let identityKey := CryptoUtils.generateKeyPair idRand
  let preKeys := (List.range 10).map fun i => CryptoUtils.generatePreKey (preRand i)
  let signedPreKey := CryptoUtils.generateSignedPreKey identityKey.privateKey spkRand
  { identityKey := identityKey, preKeys := preKeys, signedPreKey := signedPreKey }

/-- `X3DH.getPublicBundle`. -/
def getPublicBundle (session : X3DHSession) : X3DHBundle :=
  { identityKey := session.identityKey.publicKey
  , preKeys := session.preKeys.map fun pk => pk.publicKey
  , signedPreKeyPublicKey := session.signedPreKey.publicKey
  , signedPreKeySignature := session.signedPreKey.signature }

/-- The ordered four-element shared-secret combination computed on the
initiator side of `X3DH.encryptMessage` (the `Combine` output). -/
def initiatorSecret (session : X3DHSession) (recipientBundle : X3DHBundle)
    (ephemeralKey : CryptoUtils.KeyPair) (usedPreKey : String) : String :=
  let dh1 := CryptoUtils.deriveSharedSecret session.identityKey.privateKey
    recipientBundle.identityKey
  let dh2 := CryptoUtils.deriveSharedSecret ephemeralKey.privateKey
    recipientBundle.identityKey
  let dh3 := CryptoUtils.deriveSharedSecret ephemeralKey.privateKey usedPreKey
  let dh4 := CryptoUtils.deriveSharedSecret ephemeralKey.privateKey
    recipientBundle.signedPreKeyPublicKey
  CryptoUtils.combineSharedSecrets [dh1, dh2, dh3, dh4]

/-- The ordered four-element shared-secret combination computed on the
responder side of `X3DH.decryptMessage` (the `Combine` output). -/
def responderSecret (session : X3DHSession) (senderBundle : X3DHBundle)
    (ephemeralKey : String) (usedPreKey : CryptoUtils.KeyPair) : String :=
  let dh1 := CryptoUtils.deriveSharedSecret session.identityKey.privateKey
    senderBundle.identityKey
  let dh2 := CryptoUtils.deriveSharedSecret session.identityKey.privateKey ephemeralKey
  let dh3 := CryptoUtils.deriveSharedSecret usedPreKey.privateKey ephemeralKey
  let dh4 := CryptoUtils.deriveSharedSecret session.signedPreKey.privateKey ephemeralKey
  CryptoUtils.combineSharedSecrets [dh1, dh2, dh3, dh4]

/-- `X3DH.encryptMessage`; the randomness of the fresh ephemeral key is
`ephRand`.  A missing pre-key at index 0 (JavaScript `undefined` feeding
`Buffer.from`) is a thrown error, modelled as `none`. -/
def encryptMessage (session : X3DHSession) (recipientBundle : X3DHBundle)
    (message : String) (ephRand : Nat) : Option X3DHEncrypted :=
  let ephemeralKey := CryptoUtils.generateKeyPair ephRand
  match recipientBundle.preKeys[0]? with
  | none => none
  | some usedPreKey =>
    let sharedSecret := initiatorSecret session recipientBundle ephemeralKey usedPreKey
    some { encryptedMessage := CryptoUtils.encrypt message sharedSecret
         , ephemeralKey := ephemeralKey.publicKey
         , usedPreKeyIndex := 0 }

/-- `X3DH.decryptMessage`; an out-of-range `usedPreKeyIndex` (JavaScript
`undefined.privateKey`, a thrown `TypeError`) is modelled as `none`. -/
def decryptMessage (session : X3DHSession) (senderBundle : X3DHBundle)
    (encryptedMessage ephemeralKey : String) (usedPreKeyIndex : Nat) : Option String :=
  match session.preKeys[usedPreKeyIndex]? with
  | none => none
  | some usedPreKey =>
    let sharedSecret := responderSecret session senderBundle ephemeralKey usedPreKey
    some (CryptoUtils.decrypt encryptedMessage sharedSecret)

end X3DH

/-- The `PQXDHSession` record of the `PQXDH` class. -/
structure PQXDHSession where
  identityKey : CryptoUtils.KeyPair
  preKeys : List CryptoUtils.KeyPair
  signedPreKey : CryptoUtils.SignedPreKeyPair
  kyberKeyPair : KemKeyPair
  deriving DecidableEq, Repr

/-- The public bundle returned by `PQXDH.getPublicBundle`. -/
structure PQXDHBundle where
  identityKey : String
  preKeys : List String
  signedPreKeyPublicKey : String
  signedPreKeySignature : String
  kyberPublicKey : List Nat
  deriving DecidableEq, Repr

/-- The artifact returned by `PQXDH.encryptMessage`. -/
structure PQXDHEncrypted where
  encryptedMessage : String
  ephemeralKey : String
  usedPreKeyIndex : Nat
  kyberCiphertext : List Nat
  deriving DecidableEq, Repr

namespace PQXDH

/-- `PQXDH.initializeSession`: as for X3DH, plus the Kyber key-pair seed. -/
def initializeSession (idRand spkRand : Nat) (preRand : Nat → Nat)
    (kyberSeed : List Nat) : PQXDHSession :=
  let identityKey := CryptoUtils.generateKeyPair idRand
  let preKeys := (List.range 10).map fun i => CryptoUtils.generatePreKey (preRand i)
  let signedPreKey := CryptoUtils.generateSignedPreKey identityKey.privateKey spkRand
  { identityKey := identityKey, preKeys := preKeys, signedPreKey := signedPreKey
  , kyberKeyPair := kemGenerateKeyPair kyberSeed }

/-- `PQXDH.getPublicBundle`. -/
def getPublicBundle (session : PQXDHSession) : PQXDHBundle :=
  { identityKey := session.identityKey.publicKey
  , preKeys := session.preKeys.map fun pk => pk.publicKey
  , signedPreKeyPublicKey := session.signedPreKey.publicKey
  , signedPreKeySignature := session.signedPreKey.signature
  , kyberPublicKey := session.kyberKeyPair.publicKey }

/-- The ordered five-element shared-secret combination computed on the
initiator side of `PQXDH.encryptMessage` (the `Combine` output),
including the base64 of the encapsulated Kyber secret as fifth element. -/
def initiatorSecret (session : PQXDHSession) (recipientBundle : PQXDHBundle)
    (ephemeralKey : CryptoUtils.KeyPair) (usedPreKey : String)
    (kyberSharedSecret : List Nat) : String :=
  let dh1 := CryptoUtils.deriveSharedSecret session.identityKey.privateKey
    recipientBundle.identityKey
  let dh2 := CryptoUtils.deriveSharedSecret ephemeralKey.privateKey
    recipientBundle.identityKey
  let dh3 := CryptoUtils.deriveSharedSecret ephemeralKey.privateKey usedPreKey
  let dh4 := CryptoUtils.deriveSharedSecret ephemeralKey.privateKey
    recipientBundle.signedPreKeyPublicKey
  CryptoUtils.combineSharedSecrets [dh1, dh2, dh3, dh4, base64Encode kyberSharedSecret]

/-- The ordered five-element shared-secret combination computed on the
responder side of `PQXDH.decryptMessage` (the `Combine` output). -/
def responderSecret (session : PQXDHSession) (senderBundle : PQXDHBundle)
    (ephemeralKey : String) (usedPreKey : CryptoUtils.KeyPair)
    (kyberSharedSecret : List Nat) : String :=
  let dh1 := CryptoUtils.deriveSharedSecret session.identityKey.privateKey
    senderBundle.identityKey
  let dh2 := CryptoUtils.deriveSharedSecret session.identityKey.privateKey ephemeralKey
  let dh3 := CryptoUtils.deriveSharedSecret usedPreKey.privateKey ephemeralKey
  let dh4 := CryptoUtils.deriveSharedSecret session.signedPreKey.privateKey ephemeralKey
  CryptoUtils.combineSharedSecrets [dh1, dh2, dh3, dh4, base64Encode kyberSharedSecret]

/-- `PQXDH.encryptMessage`; `ephRand` is the ephemeral-key randomness and
`kemRand` the encapsulation coins of the idealised KEM. -/
def encryptMessage (session : PQXDHSession) (recipientBundle : PQXDHBundle)
    (message : String) (ephRand : Nat) (kemRand : List Nat) : Option PQXDHEncrypted :=
  let ephemeralKey := CryptoUtils.generateKeyPair ephRand
  match recipientBundle.preKeys[0]? with
  | none => none
  | some usedPreKey =>
    let encapsulated := kemEncap recipientBundle.kyberPublicKey kemRand
    let sharedSecret := initiatorSecret session recipientBundle ephemeralKey usedPreKey
      encapsulated.2
    some { encryptedMessage := CryptoUtils.encrypt message sharedSecret
         , ephemeralKey := ephemeralKey.publicKey
         , usedPreKeyIndex := 0
         , kyberCiphertext := encapsulated.1 }

/-- `PQXDH.decryptMessage`. -/
def decryptMessage (session : PQXDHSession) (senderBundle : PQXDHBundle)
    (encryptedMessage ephemeralKey : String) (usedPreKeyIndex : Nat)
    (kyberCiphertext : List Nat) : Option String :=
  match session.preKeys[usedPreKeyIndex]? with
  | none => none
  | some usedPreKey =>
    let kyberSharedSecret := kemDecap kyberCiphertext session.kyberKeyPair.privateKey
    let sharedSecret := responderSecret session senderBundle ephemeralKey usedPreKey
      kyberSharedSecret
    some (CryptoUtils.decrypt encryptedMessage sharedSecret)

end PQXDH

theorem charListLt_asymm : ∀ (a b : List Char), charListLt a b = true → charListLt b a = false := by
  intro a
  induction a with
  | nil =>
    intro b h
    cases b with
    | nil => simp [charListLt] at h
    | cons y ys => simp [charListLt]
  | cons x xs ih =>
    intro b h
    cases b with
    | nil => simp [charListLt] at h
    | cons y ys =>
      simp only [charListLt] at h ⊢
      by_cases h1 : x.toNat < y.toNat
      · rw [if_neg (by omega), if_pos h1]
      · rw [if_neg h1] at h
        by_cases h2 : y.toNat < x.toNat
        · rw [if_pos h2] at h
          exact absurd h (by simp)
        · rw [if_neg h2] at h
          rw [if_neg h2, if_neg h1]
          exact ih ys h

theorem charListLt_eq_of_not : ∀ (a b : List Char),
    charListLt a b = false → charListLt b a = false → a = b := by
  intro a
  induction a with
  | nil =>
    intro b h1 h2
    cases b with
    | nil => rfl
    | cons y ys => simp [charListLt] at h1
  | cons x xs ih =>
    intro b h1 h2
    cases b with
    | nil => simp [charListLt] at h2
    | cons y ys =>
      simp only [charListLt] at h1 h2
      by_cases hxy : x.toNat < y.toNat
      · rw [if_pos hxy] at h1
        exact absurd h1 (by simp)
      · by_cases hyx : y.toNat < x.toNat
        · rw [if_pos hyx] at h2
          exact absurd h2 (by simp)
        · rw [if_neg hxy, if_neg hyx] at h1
          rw [if_neg hyx, if_neg hxy] at h2
          have hn : x.toNat = y.toNat := by omega
          have hchar : x = y := Char.ext (UInt32.ext hn)
          subst hchar
          rw [ih ys h1 h2]

theorem jsStringLt_asymm {a b : String} (h : jsStringLt a b = true) :
    jsStringLt b a = false :=
  charListLt_asymm _ _ h

theorem jsStringLt_eq_of_not {a b : String} (h1 : jsStringLt a b = false)
    (h2 : jsStringLt b a = false) : a = b := by
  have := charListLt_eq_of_not a.toList b.toList h1 h2
  cases a
  cases b
  simpa [String.toList] using congrArg String.mk this

/-- State-passing translation of the `X3DH.getPublicBundle` method: the
body only reads `this.session` and contains no assignment to it, so the
translated post-state is the pre-state. -/
def X3DH.getPublicBundleMethod (self : X3DHSession) : X3DHBundle × X3DHSession :=
  (X3DH.getPublicBundle self, self)

/-- State-passing translation of the `X3DH.encryptMessage` method (no
assignment to `this.session` occurs in the body). -/
def X3DH.encryptMessageMethod (self : X3DHSession) (recipientBundle : X3DHBundle)
    (message : String) (ephRand : Nat) : Option X3DHEncrypted × X3DHSession :=
  (X3DH.encryptMessage self recipientBundle message ephRand, self)

/-- State-passing translation of the `X3DH.decryptMessage` method (no
assignment to `this.session` occurs in the body). -/
def X3DH.decryptMessageMethod (self : X3DHSession) (senderBundle : X3DHBundle)
    (encryptedMessage ephemeralKey : String) (usedPreKeyIndex : Nat) :
    Option String × X3DHSession :=
  (X3DH.decryptMessage self senderBundle encryptedMessage ephemeralKey usedPreKeyIndex, self)

/-- State-passing translation of the `PQXDH.getPublicBundle` method. -/
def PQXDH.getPublicBundleMethod (self : PQXDHSession) : PQXDHBundle × PQXDHSession :=
  (PQXDH.getPublicBundle self, self)

/-- State-passing translation of the `PQXDH.encryptMessage` method. -/
def PQXDH.encryptMessageMethod (self : PQXDHSession) (recipientBundle : PQXDHBundle)
    (message : String) (ephRand : Nat) (kemRand : List Nat) :
    Option PQXDHEncrypted × PQXDHSession :=
  (PQXDH.encryptMessage self recipientBundle message ephRand kemRand, self)

/-- State-passing translation of the `PQXDH.decryptMessage` method. -/
def PQXDH.decryptMessageMethod (self : PQXDHSession) (senderBundle : PQXDHBundle)
    (encryptedMessage ephemeralKey : String) (usedPreKeyIndex : Nat)
    (kyberCiphertext : List Nat) : Option String × PQXDHSession :=
  (PQXDH.decryptMessage self senderBundle encryptedMessage ephemeralKey usedPreKeyIndex
    kyberCiphertext, self)

/-- Byte-wise lexicographic comparison of byte lists. -/
def bytesLt : List Nat → List Nat → Bool
  | _, [] => false
  | [], _ :: _ => true
  | a :: as, b :: bs => if a < b then true else if b < a then false else bytesLt as bs

/-- The fingerprint computation as claim C5 reads it: the key whose
*decoded byte* encoding is byte-wise lexicographically smaller is placed
first (this follows the spec's words; the source instead compares the
base64-encoded strings). -/
def generateSafetyNumberByteOrder (key1 key2 : String) : String :=
  let d1 := base64Decode key1
  let d2 := base64Decode key2
  let combinedKeys := if bytesLt d1 d2 then d1 ++ d2 else d2 ++ d1
  jsSlice (base64Encode (sha512Model combinedKeys)) 12

/-- For honestly initialised parties the initiator-side and responder-side
`Combine` inputs of classical X3DH coincide element-wise, hence the
combined secrets are equal. -/
theorem x3dh_secrets_agree (ia sa ib sb e : Nat) (pa pb : Nat → Nat) :
    X3DH.initiatorSecret (X3DH.initializeSession ia sa pa)
      (X3DH.getPublicBundle (X3DH.initializeSession ib sb pb))
      (CryptoUtils.generateKeyPair e) (CryptoUtils.generateKeyPair (pb 0)).publicKey
    = X3DH.responderSecret (X3DH.initializeSession ib sb pb)
      (X3DH.getPublicBundle (X3DH.initializeSession ia sa pa))
      (CryptoUtils.generateKeyPair e).publicKey (CryptoUtils.generateKeyPair (pb 0)) := by
  simp only [X3DH.initiatorSecret, X3DH.responderSecret, X3DH.initializeSession,
    X3DH.getPublicBundle, CryptoUtils.generateSignedPreKey, CryptoUtils.generatePreKey]
  rw [deriveSharedSecret_comm ia ib, deriveSharedSecret_comm e ib,
    deriveSharedSecret_comm e (pb 0), deriveSharedSecret_comm e sb]

/-- The same for PQXDH: the four mirrored DH values plus the matching
encapsulated/decapsulated KEM secret. -/
theorem pqxdh_secrets_agree (ia sa ib sb e : Nat) (pa pb : Nat → Nat)
    (kyA kyB kemRand : List Nat) :
    PQXDH.initiatorSecret (PQXDH.initializeSession ia sa pa kyA)
      (PQXDH.getPublicBundle (PQXDH.initializeSession ib sb pb kyB))
      (CryptoUtils.generateKeyPair e) (CryptoUtils.generateKeyPair (pb 0)).publicKey
      (kemEncap (kemPublicOf kyB) kemRand).2
    = PQXDH.responderSecret (PQXDH.initializeSession ib sb pb kyB)
      (PQXDH.getPublicBundle (PQXDH.initializeSession ia sa pa kyA))
      (CryptoUtils.generateKeyPair e).publicKey (CryptoUtils.generateKeyPair (pb 0))
      (kemDecap kemRand kyB) := by
  simp only [PQXDH.initiatorSecret, PQXDH.responderSecret, PQXDH.initializeSession,
    PQXDH.getPublicBundle, CryptoUtils.generateSignedPreKey, CryptoUtils.generatePreKey,
    kemEncap, kemDecap, kemGenerateKeyPair, kemPublicOf, kemSharedOf]
  rw [deriveSharedSecret_comm ia ib, deriveSharedSecret_comm e ib,
    deriveSharedSecret_comm e (pb 0), deriveSharedSecret_comm e sb]

theorem x3dh_encrypt_unfold (s : X3DHSession) (b : X3DHBundle) (m : String) (e : Nat)
    (pk0 : String) (h : b.preKeys[0]? = some pk0) :
    X3DH.encryptMessage s b m e = some
      { encryptedMessage := CryptoUtils.encrypt m
          (X3DH.initiatorSecret s b (CryptoUtils.generateKeyPair e) pk0)
      , ephemeralKey := (CryptoUtils.generateKeyPair e).publicKey
      , usedPreKeyIndex := 0 } := by
  simp [X3DH.encryptMessage, h]

theorem x3dh_decrypt_unfold (s : X3DHSession) (b : X3DHBundle) (c ek : String) (i : Nat)
    (pk : CryptoUtils.KeyPair) (h : s.preKeys[i]? = some pk) :
    X3DH.decryptMessage s b c ek i
      = some (CryptoUtils.decrypt c (X3DH.responderSecret s b ek pk)) := by
  simp [X3DH.decryptMessage, h]

theorem pqxdh_encrypt_unfold (s : PQXDHSession) (b : PQXDHBundle) (m : String) (e : Nat)
    (kemRand : List Nat) (pk0 : String) (h : b.preKeys[0]? = some pk0) :
    PQXDH.encryptMessage s b m e kemRand = some
      { encryptedMessage := CryptoUtils.encrypt m
          (PQXDH.initiatorSecret s b (CryptoUtils.generateKeyPair e) pk0
            (kemEncap b.kyberPublicKey kemRand).2)
      , ephemeralKey := (CryptoUtils.generateKeyPair e).publicKey
      , usedPreKeyIndex := 0
      , kyberCiphertext := (kemEncap b.kyberPublicKey kemRand).1 } := by
  simp [PQXDH.encryptMessage, h]

theorem pqxdh_decrypt_unfold (s : PQXDHSession) (b : PQXDHBundle) (c ek : String) (i : Nat)
    (ct : List Nat) (pk : CryptoUtils.KeyPair) (h : s.preKeys[i]? = some pk) :
    PQXDH.decryptMessage s b c ek i ct
      = some (CryptoUtils.decrypt c (PQXDH.responderSecret s b ek pk
          (kemDecap ct s.kyberKeyPair.privateKey))) := by
  simp [PQXDH.decryptMessage, h]

theorem x3dh_session_preKey0 (i s : Nat) (p : Nat → Nat) :
    (X3DH.initializeSession i s p).preKeys[0]? = some (CryptoUtils.generateKeyPair (p 0)) := rfl

theorem x3dh_bundle_preKey0 (i s : Nat) (p : Nat → Nat) :
    (X3DH.getPublicBundle (X3DH.initializeSession i s p)).preKeys[0]?
      = some (CryptoUtils.generateKeyPair (p 0)).publicKey := rfl

theorem pqxdh_session_preKey0 (i s : Nat) (p : Nat → Nat) (ky : List Nat) :
    (PQXDH.initializeSession i s p ky).preKeys[0]?
      = some (CryptoUtils.generateKeyPair (p 0)) := rfl

theorem pqxdh_bundle_preKey0 (i s : Nat) (p : Nat → Nat) (ky : List Nat) :
    (PQXDH.getPublicBundle (PQXDH.initializeSession i s p ky)).preKeys[0]?
      = some (CryptoUtils.generateKeyPair (p 0)).publicKey := rfl

/-- C1: for honestly-initialized parties A and B and every plaintext `m`,
encryption by A against B's public bundle followed by B's decryption with
the returned artifacts recovers exactly `m`, and the two independently
computed session secrets (the `Combine` outputs on each side) are
byte-equal — for both the classical X3DH and the hybrid PQXDH variant. -/
theorem x3dh_pqxdh_agreement_roundtrip (ia sa ib sb e : Nat) (pa pb : Nat → Nat)
    (kyA kyB kemRand : List Nat) (m : String) :
    (∃ art : X3DHEncrypted,
      X3DH.encryptMessage (X3DH.initializeSession ia sa pa)
        (X3DH.getPublicBundle (X3DH.initializeSession ib sb pb)) m e = some art
      ∧ X3DH.decryptMessage (X3DH.initializeSession ib sb pb)
          (X3DH.getPublicBundle (X3DH.initializeSession ia sa pa))
          art.encryptedMessage art.ephemeralKey art.usedPreKeyIndex = some m
      ∧ X3DH.initiatorSecret (X3DH.initializeSession ia sa pa)
          (X3DH.getPublicBundle (X3DH.initializeSession ib sb pb))
          (CryptoUtils.generateKeyPair e) (CryptoUtils.generateKeyPair (pb 0)).publicKey
        = X3DH.responderSecret (X3DH.initializeSession ib sb pb)
          (X3DH.getPublicBundle (X3DH.initializeSession ia sa pa))
          (CryptoUtils.generateKeyPair e).publicKey (CryptoUtils.generateKeyPair (pb 0)))
    ∧ (∃ artP : PQXDHEncrypted,
      PQXDH.encryptMessage (PQXDH.initializeSession ia sa pa kyA)
        (PQXDH.getPublicBundle (PQXDH.initializeSession ib sb pb kyB)) m e kemRand
        = some artP
      ∧ PQXDH.decryptMessage (PQXDH.initializeSession ib sb pb kyB)
          (PQXDH.getPublicBundle (PQXDH.initializeSession ia sa pa kyA))
          artP.encryptedMessage artP.ephemeralKey artP.usedPreKeyIndex artP.kyberCiphertext
          = some m
      ∧ PQXDH.initiatorSecret (PQXDH.initializeSession ia sa pa kyA)
          (PQXDH.getPublicBundle (PQXDH.initializeSession ib sb pb kyB))
          (CryptoUtils.generateKeyPair e) (CryptoUtils.generateKeyPair (pb 0)).publicKey
          (kemEncap (kemPublicOf kyB) kemRand).2
        = PQXDH.responderSecret (PQXDH.initializeSession ib sb pb kyB)
          (PQXDH.getPublicBundle (PQXDH.initializeSession ia sa pa kyA))
          (CryptoUtils.generateKeyPair e).publicKey (CryptoUtils.generateKeyPair (pb 0))
          (kemDecap kemRand kyB)) := by
  constructor
  · refine ⟨_, x3dh_encrypt_unfold _ _ m e _ (x3dh_bundle_preKey0 ib sb pb), ?_, ?_⟩
    · rw [x3dh_decrypt_unfold _ _ _ _ _ _ (x3dh_session_preKey0 ib sb pb),
        ← x3dh_secrets_agree ia sa ib sb e pa pb, cryptoUtils_decrypt_encrypt]
    · exact x3dh_secrets_agree ia sa ib sb e pa pb
  · refine ⟨_, pqxdh_encrypt_unfold _ _ m e kemRand _ (pqxdh_bundle_preKey0 ib sb pb kyB), ?_, ?_⟩
    · rw [pqxdh_decrypt_unfold _ _ _ _ _ _ _ (pqxdh_session_preKey0 ib sb pb kyB)]
      have hky : (PQXDH.initializeSession ib sb pb kyB).kyberKeyPair.privateKey = kyB := rfl
      have hpub : (PQXDH.getPublicBundle (PQXDH.initializeSession ib sb pb kyB)).kyberPublicKey
          = kemPublicOf kyB := rfl
      rw [hky, hpub]
      have henc : (kemEncap (kemPublicOf kyB) kemRand).1 = kemRand := rfl
      rw [henc, ← pqxdh_secrets_agree ia sa ib sb e pa pb kyA kyB kemRand,
        cryptoUtils_decrypt_encrypt]
    · exact pqxdh_secrets_agree ia sa ib sb e pa pb kyA kyB kemRand

/-- C3: for every two key pairs produced by `generateKeyPair`,
`deriveSharedSecret(a.privateKey, b.publicKey)` equals
`deriveSharedSecret(b.privateKey, a.publicKey)`. -/
theorem deriveSharedSecret_commutes (a b : Nat) :
    CryptoUtils.deriveSharedSecret (CryptoUtils.generateKeyPair a).privateKey
      (CryptoUtils.generateKeyPair b).publicKey
    = CryptoUtils.deriveSharedSecret (CryptoUtils.generateKeyPair b).privateKey
      (CryptoUtils.generateKeyPair a).publicKey :=
  deriveSharedSecret_comm a b

/-- C4: `generateSafetyNumber` is symmetric in its two arguments. -/
theorem generateSafetyNumber_symm (k1 k2 : String) :
    CryptoUtils.generateSafetyNumber k1 k2 = CryptoUtils.generateSafetyNumber k2 k1 := by
  simp only [CryptoUtils.generateSafetyNumber]
  cases h : jsStringLt k1 k2 with
  | true =>
    have h2 := jsStringLt_asymm h
    rw [h2]
    simp
  | false =>
    cases h2 : jsStringLt k2 k1 with
    | true =>
      simp
    | false =>
      have heq := jsStringLt_eq_of_not h h2
      subst heq
      rfl

/-- The fingerprint computation with the ordering rule the code actually
implements, written in the amended claim's words: the key that is smaller
in JavaScript string comparison of the base64 encodings goes first; then
the decoded bytes are concatenated, hashed, and the first 12 characters
of the base64 digest are returned. -/
def generateSafetyNumberStringOrder (key1 key2 : String) : String :=
  let ordered := if jsStringLt key1 key2 then (key1, key2) else (key2, key1)
  jsSlice (base64Encode (sha512Model (base64Decode ordered.1 ++ base64Decode ordered.2))) 12

/-- C5 (amended): `generateSafetyNumber` orders by JavaScript string
comparison of the base64-encoded keys (not by the decoded bytes). -/
theorem generateSafetyNumber_eq_stringOrder (k1 k2 : String) :
    CryptoUtils.generateSafetyNumber k1 k2 = generateSafetyNumberStringOrder k1 k2 := by
  simp only [CryptoUtils.generateSafetyNumber, generateSafetyNumberStringOrder]
  cases h : jsStringLt k1 k2 <;> simp

/-- C5 counterexample: on these two valid 32-byte keys, base64-string
order and decoded-byte order disagree (`0xFB…` encodes to `"+w…"`, which
is string-smaller than `"AA…"`, while its bytes are larger), so the
fingerprint differs from the byte-order rule the claim states. -/
theorem generateSafetyNumber_byteOrder_counterexample :
    CryptoUtils.generateSafetyNumber (base64Encode (251 :: List.replicate 31 0))
      (base64Encode (List.replicate 32 0))
    ≠ generateSafetyNumberByteOrder (base64Encode (251 :: List.replicate 31 0))
      (base64Encode (List.replicate 32 0)) := by
  intro h
  rw [show CryptoUtils.generateSafetyNumber (base64Encode (251 :: List.replicate 31 0))
      (base64Encode (List.replicate 32 0)) = "QPsAAAAAAAAA" from rfl] at h
  rw [show generateSafetyNumberByteOrder (base64Encode (251 :: List.replicate 31 0))
      (base64Encode (List.replicate 32 0)) = "QAAAAAAAAAAA" from rfl] at h
  exact absurd h (by decide)

/-- C2: the key under which the plaintext is encrypted is derived from
`Combine` applied to exactly the ordered list `[dh1, dh2, dh3, dh4]`
(`dh1 = DH(S.identityKey.private, B.identityKey)`,
`dh2 = DH(eph.private, B.identityKey)`, `dh3 = DH(eph.private,
B.preKeys[0])`, `dh4 = DH(eph.private, B.signedPreKey.publicKey)`),
extended in the hybrid variant by the KEM-encapsulated secret as fifth
element, with `eph` the fresh ephemeral key pair. -/
theorem encrypt_key_is_combine_of_ordered_dhs
    (s : X3DHSession) (b : X3DHBundle) (sP : PQXDHSession) (bP : PQXDHBundle)
    (m : String) (e : Nat) (kemRand : List Nat) (pk0 pk0P : String)
    (h : b.preKeys[0]? = some pk0) (hP : bP.preKeys[0]? = some pk0P) :
    X3DH.encryptMessage s b m e = some
      { encryptedMessage := CryptoUtils.encrypt m (CryptoUtils.combineSharedSecrets
          [ CryptoUtils.deriveSharedSecret s.identityKey.privateKey b.identityKey
          , CryptoUtils.deriveSharedSecret (CryptoUtils.generateKeyPair e).privateKey
              b.identityKey
          , CryptoUtils.deriveSharedSecret (CryptoUtils.generateKeyPair e).privateKey pk0
          , CryptoUtils.deriveSharedSecret (CryptoUtils.generateKeyPair e).privateKey
              b.signedPreKeyPublicKey ])
      , ephemeralKey := (CryptoUtils.generateKeyPair e).publicKey
      , usedPreKeyIndex := 0 }
    ∧ PQXDH.encryptMessage sP bP m e kemRand = some
      { encryptedMessage := CryptoUtils.encrypt m (CryptoUtils.combineSharedSecrets
          [ CryptoUtils.deriveSharedSecret sP.identityKey.privateKey bP.identityKey
          , CryptoUtils.deriveSharedSecret (CryptoUtils.generateKeyPair e).privateKey
              bP.identityKey
          , CryptoUtils.deriveSharedSecret (CryptoUtils.generateKeyPair e).privateKey pk0P
          , CryptoUtils.deriveSharedSecret (CryptoUtils.generateKeyPair e).privateKey
              bP.signedPreKeyPublicKey
          , base64Encode (kemEncap bP.kyberPublicKey kemRand).2 ])
      , ephemeralKey := (CryptoUtils.generateKeyPair e).publicKey
      , usedPreKeyIndex := 0
      , kyberCiphertext := (kemEncap bP.kyberPublicKey kemRand).1 } := by
  constructor
  · rw [x3dh_encrypt_unfold s b m e pk0 h]
    rfl
  · rw [pqxdh_encrypt_unfold sP bP m e kemRand pk0P hP]
    rfl

/-- C6: every successful encryption (classical or hybrid) reports
`usedPreKeyIndex = 0`, and the pre-key fed to the third DH inside the
combined secret is the bundle's pre-key at index 0. -/
theorem usedPreKeyIndex_always_zero
    (s : X3DHSession) (b : X3DHBundle) (sP : PQXDHSession) (bP : PQXDHBundle)
    (m : String) (e : Nat) (kemRand : List Nat) :
    (∀ art, X3DH.encryptMessage s b m e = some art →
      art.usedPreKeyIndex = 0 ∧ ∃ pk0, b.preKeys[0]? = some pk0 ∧
        art.encryptedMessage = CryptoUtils.encrypt m
          (X3DH.initiatorSecret s b (CryptoUtils.generateKeyPair e) pk0))
    ∧ (∀ artP, PQXDH.encryptMessage sP bP m e kemRand = some artP →
      artP.usedPreKeyIndex = 0 ∧ ∃ pk0, bP.preKeys[0]? = some pk0 ∧
        artP.encryptedMessage = CryptoUtils.encrypt m
          (PQXDH.initiatorSecret sP bP (CryptoUtils.generateKeyPair e) pk0
            (kemEncap bP.kyberPublicKey kemRand).2)) := by
  constructor
  · intro art hart
    cases h : b.preKeys[0]? with
    | none => simp [X3DH.encryptMessage, h] at hart
    | some pk0 =>
      rw [x3dh_encrypt_unfold s b m e pk0 h] at hart
      have harteq := Option.some.inj hart
      subst harteq
      exact ⟨rfl, pk0, rfl, rfl⟩
  · intro artP hartP
    cases h : bP.preKeys[0]? with
    | none => simp [PQXDH.encryptMessage, h] at hartP
    | some pk0 =>
      rw [pqxdh_encrypt_unfold sP bP m e kemRand pk0 h] at hartP
      have harteq := Option.some.inj hartP
      subst harteq
      exact ⟨rfl, pk0, rfl, rfl⟩

/-- C7: when `usedPreKeyIndex` does not address one of the ten local
pre-keys, `decryptMessage` fails (the thrown `TypeError` on
`undefined.privateKey`, modelled as `none`) instead of returning a
plaintext, in both variants. -/
theorem decrypt_out_of_range_fails
    (s : X3DHSession) (b : X3DHBundle) (sP : PQXDHSession) (bP : PQXDHBundle)
    (c ek : String) (i : Nat) (ct : List Nat)
    (hs : s.preKeys.length = 10) (hsP : sP.preKeys.length = 10) (hi : 10 ≤ i) :
    X3DH.decryptMessage s b c ek i = none
    ∧ PQXDH.decryptMessage sP bP c ek i ct = none := by
  have h1 : s.preKeys[i]? = none := by
    rw [List.getElem?_eq_none]
    omega
  have h2 : sP.preKeys[i]? = none := by
    rw [List.getElem?_eq_none]
    omega
  constructor
  · simp [X3DH.decryptMessage, h1]
  · simp [PQXDH.decryptMessage, h2]

/-- C8: none of the public operations modifies the party's `Session`: the
state-passing translations of the six methods return the pre-state
unchanged, whether or not the call succeeds. -/
theorem session_unchanged_by_public_ops
    (s : X3DHSession) (b b2 : X3DHBundle) (sP : PQXDHSession) (bP bP2 : PQXDHBundle)
    (m c ek : String) (e i : Nat) (kemRand ct : List Nat) :
    (X3DH.getPublicBundleMethod s).2 = s
    ∧ (X3DH.encryptMessageMethod s b m e).2 = s
    ∧ (X3DH.decryptMessageMethod s b2 c ek i).2 = s
    ∧ (PQXDH.getPublicBundleMethod sP).2 = sP
    ∧ (PQXDH.encryptMessageMethod sP bP m e kemRand).2 = sP
    ∧ (PQXDH.decryptMessageMethod sP bP2 c ek i ct).2 = sP :=
  ⟨rfl, rfl, rfl, rfl, rfl, rfl⟩

/-- C9: `getPublicBundle` is exactly the public projection of the Session
(identity public key, the ten pre-key public keys in order, the signed
pre-key's public key and signature, plus the Kyber public key in the
hybrid variant), and it depends only on those public components — no
private-key value of the Session influences any field of the bundle. -/
theorem getPublicBundle_is_public_projection
    (s s2 : X3DHSession) (sP sP2 : PQXDHSession) :
    ((X3DH.getPublicBundle s).identityKey = s.identityKey.publicKey
      ∧ (X3DH.getPublicBundle s).preKeys = s.preKeys.map (fun pk => pk.publicKey)
      ∧ (X3DH.getPublicBundle s).signedPreKeyPublicKey = s.signedPreKey.publicKey
      ∧ (X3DH.getPublicBundle s).signedPreKeySignature = s.signedPreKey.signature)
    ∧ ((PQXDH.getPublicBundle sP).identityKey = sP.identityKey.publicKey
      ∧ (PQXDH.getPublicBundle sP).preKeys = sP.preKeys.map (fun pk => pk.publicKey)
      ∧ (PQXDH.getPublicBundle sP).signedPreKeyPublicKey = sP.signedPreKey.publicKey
      ∧ (PQXDH.getPublicBundle sP).signedPreKeySignature = sP.signedPreKey.signature
      ∧ (PQXDH.getPublicBundle sP).kyberPublicKey = sP.kyberKeyPair.publicKey)
    ∧ (s.identityKey.publicKey = s2.identityKey.publicKey →
        s.preKeys.map (fun pk => pk.publicKey) = s2.preKeys.map (fun pk => pk.publicKey) →
        s.signedPreKey.publicKey = s2.signedPreKey.publicKey →
        s.signedPreKey.signature = s2.signedPreKey.signature →
        X3DH.getPublicBundle s = X3DH.getPublicBundle s2)
    ∧ (sP.identityKey.publicKey = sP2.identityKey.publicKey →
        sP.preKeys.map (fun pk => pk.publicKey) = sP2.preKeys.map (fun pk => pk.publicKey) →
        sP.signedPreKey.publicKey = sP2.signedPreKey.publicKey →
        sP.signedPreKey.signature = sP2.signedPreKey.signature →
        sP.kyberKeyPair.publicKey = sP2.kyberKeyPair.publicKey →
        PQXDH.getPublicBundle sP = PQXDH.getPublicBundle sP2) := by
  refine ⟨⟨rfl, rfl, rfl, rfl⟩, ⟨rfl, rfl, rfl, rfl, rfl⟩, ?_, ?_⟩
  · intro h1 h2 h3 h4
    simp [X3DH.getPublicBundle, h1, h2, h3, h4]
  · intro h1 h2 h3 h4 h5
    simp [PQXDH.getPublicBundle, h1, h2, h3, h4, h5]

/-- C10: for fixed artifacts, decryption gives equal results under any
two sender bundles that agree on `identityKey`: the sender bundle's
`preKeys`, signed pre-key fields and (hybrid) `kyberPublicKey` never
influence the decryption output. -/
theorem decrypt_ignores_other_bundle_fields
    (s : X3DHSession) (b1 b2 : X3DHBundle) (sP : PQXDHSession) (bP1 bP2 : PQXDHBundle)
    (c ek : String) (i : Nat) (ct : List Nat)
    (h : b1.identityKey = b2.identityKey) (hP : bP1.identityKey = bP2.identityKey) :
    X3DH.decryptMessage s b1 c ek i = X3DH.decryptMessage s b2 c ek i
    ∧ PQXDH.decryptMessage sP bP1 c ek i ct = PQXDH.decryptMessage sP bP2 c ek i ct := by
  constructor
  · simp only [X3DH.decryptMessage, X3DH.responderSecret, h]
  · simp only [PQXDH.decryptMessage, PQXDH.responderSecret, hP]

/-- Shorthand for building concrete key pairs in the witness fixtures. -/
def wKP (p q : String) : CryptoUtils.KeyPair := { publicKey := p, privateKey := q }

/-- A concrete ten-pre-key session used by the witness theorems. -/
def wSession : X3DHSession :=
  { identityKey := wKP "ipub" "ipriv"
  , preKeys := [wKP "p0" "q0", wKP "p1" "q1", wKP "p2" "q2", wKP "p3" "q3", wKP "p4" "q4",
      wKP "p5" "q5", wKP "p6" "q6", wKP "p7" "q7", wKP "p8" "q8", wKP "p9" "q9"]
  , signedPreKey := { publicKey := "spub", privateKey := "spriv", signature := "sig" } }

/-- `wSession` with every private key replaced, public parts unchanged. -/
def wSession2 : X3DHSession :=
  { identityKey := wKP "ipub" "zi"
  , preKeys := [wKP "p0" "z0", wKP "p1" "z1", wKP "p2" "z2", wKP "p3" "z3", wKP "p4" "z4",
      wKP "p5" "z5", wKP "p6" "z6", wKP "p7" "z7", wKP "p8" "z8", wKP "p9" "z9"]
  , signedPreKey := { publicKey := "spub", privateKey := "zs", signature := "sig" } }

/-- A concrete hybrid session used by the witness theorems. -/
def wPSession : PQXDHSession :=
  { identityKey := wKP "ipub" "ipriv"
  , preKeys := [wKP "p0" "q0", wKP "p1" "q1", wKP "p2" "q2", wKP "p3" "q3", wKP "p4" "q4",
      wKP "p5" "q5", wKP "p6" "q6", wKP "p7" "q7", wKP "p8" "q8", wKP "p9" "q9"]
  , signedPreKey := { publicKey := "spub", privateKey := "spriv", signature := "sig" }
  , kyberKeyPair := { publicKey := [1], privateKey := [2] } }

/-- `wPSession` with every private key replaced, public parts unchanged. -/
def wPSession2 : PQXDHSession :=
  { identityKey := wKP "ipub" "zi"
  , preKeys := [wKP "p0" "z0", wKP "p1" "z1", wKP "p2" "z2", wKP "p3" "z3", wKP "p4" "z4",
      wKP "p5" "z5", wKP "p6" "z6", wKP "p7" "z7", wKP "p8" "z8", wKP "p9" "z9"]
  , signedPreKey := { publicKey := "spub", privateKey := "zs", signature := "sig" }
  , kyberKeyPair := { publicKey := [1], privateKey := [8] } }

/-- A concrete peer bundle. -/
def wBundle : X3DHBundle :=
  { identityKey := "bik", preKeys := ["bp0", "bp1"]
  , signedPreKeyPublicKey := "bsp", signedPreKeySignature := "bsg" }

/-- `wBundle` with the same `identityKey` but different pre-keys and
signed pre-key. -/
def wBundleAlt : X3DHBundle :=
  { identityKey := "bik", preKeys := ["zz"]
  , signedPreKeyPublicKey := "zsp", signedPreKeySignature := "zsg" }

/-- A concrete hybrid peer bundle. -/
def wPBundle : PQXDHBundle :=
  { identityKey := "bik", preKeys := ["bp0"]
  , signedPreKeyPublicKey := "bsp", signedPreKeySignature := "bsg"
  , kyberPublicKey := [3, 4] }

/-- `wPBundle` with the same `identityKey` but different remaining fields. -/
def wPBundleAlt : PQXDHBundle :=
  { identityKey := "bik", preKeys := []
  , signedPreKeyPublicKey := "zsp", signedPreKeySignature := "zsg"
  , kyberPublicKey := [9] }

/-- The artifact produced by the concrete classical encryption below. -/
def wArt : X3DHEncrypted :=
  { encryptedMessage := CryptoUtils.encrypt "msg"
      (X3DH.initiatorSecret wSession wBundle (CryptoUtils.generateKeyPair 3) "bp0")
  , ephemeralKey := (CryptoUtils.generateKeyPair 3).publicKey
  , usedPreKeyIndex := 0 }

/-- The artifact produced by the concrete hybrid encryption below. -/
def wPArt : PQXDHEncrypted :=
  { encryptedMessage := CryptoUtils.encrypt "msg"
      (PQXDH.initiatorSecret wPSession wPBundle (CryptoUtils.generateKeyPair 3) "bp0"
        (kemEncap wPBundle.kyberPublicKey [7]).2)
  , ephemeralKey := (CryptoUtils.generateKeyPair 3).publicKey
  , usedPreKeyIndex := 0
  , kyberCiphertext := (kemEncap wPBundle.kyberPublicKey [7]).1 }

/-- Witness for C2 at a concrete session, bundle and message. -/
theorem encrypt_key_is_combine_witness :
    wBundle.preKeys[0]? = some "bp0" ∧ wPBundle.preKeys[0]? = some "bp0"
    ∧ (X3DH.encryptMessage wSession wBundle "msg" 3 = some
        { encryptedMessage := CryptoUtils.encrypt "msg" (CryptoUtils.combineSharedSecrets
            [ CryptoUtils.deriveSharedSecret wSession.identityKey.privateKey wBundle.identityKey
            , CryptoUtils.deriveSharedSecret (CryptoUtils.generateKeyPair 3).privateKey
                wBundle.identityKey
            , CryptoUtils.deriveSharedSecret (CryptoUtils.generateKeyPair 3).privateKey "bp0"
            , CryptoUtils.deriveSharedSecret (CryptoUtils.generateKeyPair 3).privateKey
                wBundle.signedPreKeyPublicKey ])
        , ephemeralKey := (CryptoUtils.generateKeyPair 3).publicKey
        , usedPreKeyIndex := 0 }
      ∧ PQXDH.encryptMessage wPSession wPBundle "msg" 3 [7] = some
        { encryptedMessage := CryptoUtils.encrypt "msg" (CryptoUtils.combineSharedSecrets
            [ CryptoUtils.deriveSharedSecret wPSession.identityKey.privateKey wPBundle.identityKey
            , CryptoUtils.deriveSharedSecret (CryptoUtils.generateKeyPair 3).privateKey
                wPBundle.identityKey
            , CryptoUtils.deriveSharedSecret (CryptoUtils.generateKeyPair 3).privateKey "bp0"
            , CryptoUtils.deriveSharedSecret (CryptoUtils.generateKeyPair 3).privateKey
                wPBundle.signedPreKeyPublicKey
            , base64Encode (kemEncap wPBundle.kyberPublicKey [7]).2 ])
        , ephemeralKey := (CryptoUtils.generateKeyPair 3).publicKey
        , usedPreKeyIndex := 0
        , kyberCiphertext := (kemEncap wPBundle.kyberPublicKey [7]).1 }) :=
  ⟨rfl, rfl, encrypt_key_is_combine_of_ordered_dhs wSession wBundle wPSession wPBundle
    "msg" 3 [7] "bp0" "bp0" rfl rfl⟩

/-- Witness for C6 at a concrete session, bundle and message. -/
theorem usedPreKeyIndex_zero_witness :
    X3DH.encryptMessage wSession wBundle "msg" 3 = some wArt
    ∧ PQXDH.encryptMessage wPSession wPBundle "msg" 3 [7] = some wPArt
    ∧ (wArt.usedPreKeyIndex = 0 ∧ ∃ pk0, wBundle.preKeys[0]? = some pk0 ∧
        wArt.encryptedMessage = CryptoUtils.encrypt "msg"
          (X3DH.initiatorSecret wSession wBundle (CryptoUtils.generateKeyPair 3) pk0))
    ∧ (wPArt.usedPreKeyIndex = 0 ∧ ∃ pk0, wPBundle.preKeys[0]? = some pk0 ∧
        wPArt.encryptedMessage = CryptoUtils.encrypt "msg"
          (PQXDH.initiatorSecret wPSession wPBundle (CryptoUtils.generateKeyPair 3) pk0
            (kemEncap wPBundle.kyberPublicKey [7]).2)) :=
  ⟨rfl, rfl,
    (usedPreKeyIndex_always_zero wSession wBundle wPSession wPBundle "msg" 3 [7]).1 wArt rfl,
    (usedPreKeyIndex_always_zero wSession wBundle wPSession wPBundle "msg" 3 [7]).2 wPArt rfl⟩

/-- Witness for C7 at a concrete session and the out-of-range index 10. -/
theorem decrypt_out_of_range_witness :
    wSession.preKeys.length = 10 ∧ wPSession.preKeys.length = 10 ∧ 10 ≤ 10
    ∧ X3DH.decryptMessage wSession wBundle "c" "e" 10 = none
    ∧ PQXDH.decryptMessage wPSession wPBundle "c" "e" 10 [5] = none :=
  ⟨rfl, rfl, le_refl 10,
    (decrypt_out_of_range_fails wSession wBundle wPSession wPBundle "c" "e" 10 [5]
      rfl rfl (le_refl 10)).1,
    (decrypt_out_of_range_fails wSession wBundle wPSession wPBundle "c" "e" 10 [5]
      rfl rfl (le_refl 10)).2⟩

/-- Witness for C9: two concrete sessions that differ in every private
key produce identical public bundles. -/
theorem public_projection_witness :
    X3DH.getPublicBundle wSession = X3DH.getPublicBundle wSession2
    ∧ PQXDH.getPublicBundle wPSession = PQXDH.getPublicBundle wPSession2 :=
  ⟨(getPublicBundle_is_public_projection wSession wSession2 wPSession wPSession2).2.2.1
      rfl rfl rfl rfl,
    (getPublicBundle_is_public_projection wSession wSession2 wPSession wPSession2).2.2.2
      rfl rfl rfl rfl rfl⟩

/-- Witness for C10: two concrete sender bundles agreeing only on
`identityKey` yield identical decryption results. -/
theorem decrypt_ignores_witness :
    wBundle.identityKey = wBundleAlt.identityKey
    ∧ wPBundle.identityKey = wPBundleAlt.identityKey
    ∧ (X3DH.decryptMessage wSession wBundle "c" "e" 0
        = X3DH.decryptMessage wSession wBundleAlt "c" "e" 0
      ∧ PQXDH.decryptMessage wPSession wPBundle "c" "e" 0 [5]
        = PQXDH.decryptMessage wPSession wPBundleAlt "c" "e" 0 [5]) :=
  ⟨rfl, rfl, decrypt_ignores_other_bundle_fields wSession wBundle wBundleAlt
    wPSession wPBundle wPBundleAlt "c" "e" 0 [5] rfl rfl⟩
